import Mathlib

/-!
Shallow embedding of the expense-tracking Flask service (src/app):
the data model of `models.py` and the request handlers of `views.py`,
with theorems settling the specification claims about ledger
consistency, cascades, uniqueness and error handling.

Monetary values are Python `Decimal`/`float` quantities; the handlers in
`views.py` parse request amounts with `float(...)` and convert via
`Decimal(str(...))`, so besides finite values the special values
infinity and NaN can flow in.  `PyDec` models a decimal quantity that is
either a finite rational or one of those special values, with the
arithmetic and comparison behaviour of Python's `Decimal`
(quiet-NaN propagation for `+`/`-`; ordered comparison of a NaN raises
`InvalidOperation`, modelled as `none`).
-/

namespace App

/-- A Python `Decimal` (or `float`) value: finite rational, `Infinity`,
`-Infinity` or quiet `NaN`. -/
inductive PyDec where
  | fin (q : ℚ)
  | inf
  | negInf
  | nan
deriving Repr, DecidableEq

namespace PyDec

/-- Python `x <= 0` on the parsed float: NaN compares false,
`inf <= 0` is false, `-inf <= 0` is true. -/
def leZero : PyDec → Bool
  | fin q => q ≤ 0
  | inf => false
  | negInf => true
  | nan => false

/-- Decimal addition with special values (`views.py` line 197,
`account.balance + amount_dec`): quiet NaN propagates, `inf + (-inf)` is NaN. -/
def add : PyDec → PyDec → PyDec
  | nan, _ => nan
  | _, nan => nan
  | inf, negInf => nan
  | negInf, inf => nan
  | inf, _ => inf
  | _, inf => inf
  | negInf, _ => negInf
  | _, negInf => negInf
  | fin a, fin b => fin (a + b)

/-- Decimal subtraction with special values (`views.py` line 336,
`current_balance - amount_dec`): `inf - inf` is NaN. -/
def sub : PyDec → PyDec → PyDec
  | nan, _ => nan
  | _, nan => nan
  | inf, inf => nan
  | negInf, negInf => nan
  | inf, _ => inf
  | _, inf => negInf
  | negInf, _ => negInf
  | _, negInf => inf
  | fin a, fin b => fin (a - b)

/-- Decimal ordered comparison `a < b` (`views.py` line 333): comparing a
NaN signals `InvalidOperation` (Python raises), modelled as `none`. -/
def ltD : PyDec → PyDec → Option Bool
  | nan, _ => none
  | _, nan => none
  | fin a, fin b => some (decide (a < b))
  | inf, _ => some false
  | _, inf => some true
  | negInf, negInf => some false
  | negInf, _ => some true
  | _, negInf => some false

/-- The value is a negative number (strictly below zero); NaN is not
negative, nor is positive infinity. -/
def isNeg : PyDec → Bool
  | fin q => q < 0
  | negInf => true
  | _ => false

/-- The value compares greater than or equal to zero; NaN does not
(a NaN is not `>= 0` in any numeric sense). -/
def nonneg : PyDec → Bool
  | fin q => 0 ≤ q
  | inf => true
  | _ => false

end PyDec

/-! ### Data model, from `src/app/models.py`

`User` (table `users`) has exactly the mapped columns `id` and `name`
(models.py lines 6-26); it owns records and at most one account via
cascading relationships.  `Category` (lines 29-42): `id` and a `name`
that is unique at the storage layer.  `Record` (lines 45-82): `id`,
`user_id`, `category_id`, `created_at` timestamp, `amount Numeric(10,2)`.
`Account` (lines 85-108): `id`, a `user_id` with a `unique=True`
constraint, and `balance Numeric(12,2)` (non-null, default 0). -/

structure User where
  id : Nat
  name : String
deriving Repr, DecidableEq

structure Category where
  id : Nat
  name : String
deriving Repr, DecidableEq

structure Record where
  id : Nat
  user_id : Nat
  category_id : Nat
  created_at : Int
  amount : PyDec
deriving Repr, DecidableEq

structure Account where
  id : Nat
  user_id : Nat
  balance : PyDec
deriving Repr, DecidableEq

/-- The database state: the four tables plus the primary-key sequences
and the request-time clock (used for a defaulted `created_at`). -/
structure DBState where
  users : List User
  categories : List Category
  records : List Record
  accounts : List Account
  nextUserId : Nat
  nextCategoryId : Nat
  nextRecordId : Nat
  nextAccountId : Nat
  now : Int
deriving Repr, DecidableEq

/-! ### Request inputs and error responses -/

/-- The `amount` field of a JSON body after `float(data["amount"])`:
either the conversion raised `TypeError`/`ValueError` (non-numeric), or
it produced a float value (possibly infinite or NaN). -/
inductive AmountIn where
  | nonNumeric
  | num (v : PyDec)
deriving Repr, DecidableEq

/-- The optional `created_at` field: absent (or empty), an invalid
ISO-8601 string, or a timestamp that parses (already normalized to UTC). -/
inductive CreatedAtIn where
  | absent
  | invalid
  | given (t : Int)
deriving Repr, DecidableEq

/-- A Python exception escaping a handler (Flask turns it into HTTP 500). -/
inductive PyExn where
  | attributeError
  | typeError
  | invalidOperation
deriving Repr, DecidableEq

/-- The distinct error bodies produced by `error_response` in `views.py`,
plus `py` for an uncaught exception. -/
inductive ErrKind where
  | registrationFieldsRequired
  | loginFieldsRequired
  | invalidCredentials
  | usernameTaken
  | userNotFound
  | userDoesNotExist
  | categoryNotFound
  | categoryDoesNotExist
  | recordNotFound
  | amountRequired
  | amountNotNumber
  | amountNotPositive
  | nameRequired
  | categoryNameExists
  | insufficientFunds
  | invalidTimestamp
  | idParamRequired
  | missingFields (fs : List String)
  | filterRequired
  | py (e : PyExn)
deriving Repr, DecidableEq

/-- An error reply: HTTP status code and which error body. -/
structure ErrResp where
  status : Nat
  kind : ErrKind
deriving Repr, DecidableEq

/-- Outcome of a handler: an error reply or a success payload,
together with the database state after the request (uncommitted session
changes are rolled back at request teardown, so error paths leave the
state unchanged). -/
abbrev HResult (α : Type) := Except ErrResp α × DBState

/-! ### Query helpers -/

/-- `User.query.get(user_id)`. -/
def findUser (s : DBState) (uid : Nat) : Option User :=
  s.users.find? (fun u => u.id == uid)

/-- `Category.query.get(category_id)`. -/
def findCategory (s : DBState) (cid : Nat) : Option Category :=
  s.categories.find? (fun c => c.id == cid)

/-- `Record.query.get(record_id)`. -/
def findRecord (s : DBState) (rid : Nat) : Option Record :=
  s.records.find? (fun r => r.id == rid)

/-- `user.account`: the one-to-one relationship resolved through the
unique `accounts.user_id` column. -/
def findAccount (s : DBState) (uid : Nat) : Option Account :=
  s.accounts.find? (fun a => a.user_id == uid)

/-- `account.balance or Decimal("0")` (`views.py` lines 197 and 331):
the column is non-null, and a zero `Decimal` is falsy in Python, so the
expression returns a zero decimal exactly when the balance is zero —
semantically the balance itself. -/
def orZero (b : PyDec) : PyDec :=
  if b = PyDec.fin 0 then PyDec.fin 0 else b

/-- Overwrite the balance of the (first) account row of `uid`,
modelling the ORM mutating the fetched `account` object. -/
def setBal : List Account → Nat → PyDec → List Account
  | [], _, _ => []
  | a :: rest, uid, b =>
      if a.user_id == uid then { a with balance := b } :: rest
      else a :: setBal rest uid b

/-- The balance the ledger code would start from for `uid`: the owned
account's balance, or zero when no account row exists yet (a fresh
account is materialized with balance `Decimal("0")`). -/
def balanceFor (s : DBState) (uid : Nat) : PyDec :=
  match findAccount s uid with
  | some a => orZero a.balance
  | none => PyDec.fin 0

/-- Number of account rows owned by `uid`. -/
def countAcc (s : DBState) (uid : Nat) : Nat :=
  (s.accounts.filter (fun a => a.user_id == uid)).length

/-! ### Handlers, from `src/app/views.py` -/

/-- The mapped column names of the `User` model (`models.py` lines 6-26):
only `id` and `name`.  `views.py` additionally expects `username` and
`password` columns, which do not exist. -/
def userColumns : List String := ["id", "name"]

/-- `User.query.filter_by(username=...)` (`views.py` line 78): `username`
is not a mapped attribute of `User` (see `userColumns`), so SQLAlchemy
raises instead of returning a query result. -/
def filterUsersByUsername (_s : DBState) (_username : String) :
    Except PyExn (Option User) :=
  if "username" ∈ userColumns then .ok none else .error .attributeError

/-- `POST /user` (`views.py` lines 65-90, `register_user`): requires
truthy `username`, `password`, `name`; then checks for a duplicate
username and inserts.  Both the duplicate check (line 78) and the
constructor call `User(username=..., password=..., name=...)` (line 81)
touch `User` attributes that `models.py` does not define, so the request
can never reach the insert. -/
def register_user (s : DBState) (username password name : Option String) :
    HResult User :=
  match username, password, name with
  | some u, some p, some n =>
      if u = "" ∨ p = "" ∨ n = "" then
        (.error ⟨400, .registrationFieldsRequired⟩, s)
      else
        match filterUsersByUsername s u with
        | .error e => (.error ⟨500, .py e⟩, s)
        | .ok (some _) => (.error ⟨400, .usernameTaken⟩, s)
        | .ok none =>
            -- `User(username=..., password=..., name=...)` would raise
            -- `TypeError`: `username` is not a column of the model.
            (.error ⟨500, .py .typeError⟩, s)
  | _, _, _ => (.error ⟨400, .registrationFieldsRequired⟩, s)

/-- `GET /user/<id>/account` (`views.py` lines 150-165, `get_account`):
404 for a missing user; otherwise returns the account, materializing one
with balance `Decimal("0")` if absent. -/
def get_account (s : DBState) (uid : Nat) : HResult Account :=
  match findUser s uid with
  | none => (.error ⟨404, .userNotFound⟩, s)
  | some user =>
      match findAccount s uid with
      | some account => (.ok account, s)
      | none =>
          let account : Account := ⟨s.nextAccountId, user.id, PyDec.fin 0⟩
          (.ok account,
            { s with accounts := s.accounts ++ [account],
                     nextAccountId := s.nextAccountId + 1 })

/-- `POST /user/<id>/account/deposit` (`views.py` lines 168-200,
`deposit_to_account`): 404 for a missing user; 400 when `amount` is
missing, non-numeric, or `<= 0` as a float; otherwise materializes the
account if absent and adds the decimal amount to the balance. -/
def deposit_to_account (s : DBState) (uid : Nat) (amount : Option AmountIn) :
    HResult Account :=
  match findUser s uid with
  | none => (.error ⟨404, .userNotFound⟩, s)
  | some user =>
      match amount with
      | none => (.error ⟨400, .amountRequired⟩, s)
      | some .nonNumeric => (.error ⟨400, .amountNotNumber⟩, s)
      | some (.num v) =>
          if v.leZero then (.error ⟨400, .amountNotPositive⟩, s)
          else
            match findAccount s uid with
            | some account =>
                let newB := PyDec.add (orZero account.balance) v
                ({ account with balance := newB } |> .ok,
                  { s with accounts := setBal s.accounts uid newB })
            | none =>
                let newB := PyDec.add (PyDec.fin 0) v
                let account : Account := ⟨s.nextAccountId, user.id, newB⟩
                (.ok account,
                  { s with accounts := s.accounts ++ [account],
                           nextAccountId := s.nextAccountId + 1 })

/-- Whether committing the insert of category `c` fails at the storage
layer: either the unique constraint on `categories.name` is violated
(`models.py` line 33, `unique=True`), or the name exceeds the
`String(128)` length bound declared there (a Postgres `varchar(128)`
rejects longer values at insert). -/
def categoryCommitFails (s : DBState) (c : Category) : Bool :=
  s.categories.any (fun x => x.name == c.name) || decide (128 < c.name.length)

/-- `POST /category` (`views.py` lines 213-232, `create_category`):
400 for a missing/empty name; the insert is attempted and any storage
failure on commit — the unique constraint on `categories.name`, or the
`String(128)` length bound — is caught by the blanket `except`, rolled
back and reported as the duplicate-name 400 (even when the actual fault
is the length bound, not a duplicate). -/
def create_category (s : DBState) (name : Option String) : HResult Category :=
  match name with
  | none => (.error ⟨400, .nameRequired⟩, s)
  | some n =>
      if n = "" then (.error ⟨400, .nameRequired⟩, s)
      else
        let category : Category := ⟨s.nextCategoryId, n⟩
        if categoryCommitFails s category then
          (.error ⟨400, .categoryNameExists⟩, s)
        else
          (.ok category,
            { s with categories := s.categories ++ [category],
                     nextCategoryId := s.nextCategoryId + 1 })

/-- `DELETE /category?id=` (`views.py` lines 235-251, `delete_category`):
400 without an `id` query parameter, 404 for an unknown category;
deletion cascades to the records referencing the category
(`models.py` lines 35-39, `cascade="all, delete-orphan"`) and touches
nothing else. -/
def delete_category (s : DBState) (cid : Option Nat) : HResult Unit :=
  match cid with
  | none => (.error ⟨400, .idParamRequired⟩, s)
  | some c =>
      match findCategory s c with
      | none => (.error ⟨404, .categoryNotFound⟩, s)
      | some _ =>
          (.ok (),
            { s with categories := s.categories.filter (fun x => !(x.id == c)),
                     records := s.records.filter (fun r => !(r.category_id == c)) })

/-- `DELETE /record/<id>` (`views.py` lines 266-278, `delete_record`):
404 for an unknown record; removes the record row only — no balance is
restored. -/
def delete_record (s : DBState) (rid : Nat) : HResult Unit :=
  match findRecord s rid with
  | none => (.error ⟨404, .recordNotFound⟩, s)
  | some _ =>
      (.ok (), { s with records := s.records.filter (fun r => !(r.id == rid)) })

/-- `DELETE /user/<id>` (`views.py` lines 124-136, `delete_user`):
404 for an unknown user; cascades to the user's records and account
(`models.py` lines 12-23). -/
def delete_user (s : DBState) (uid : Nat) : HResult Unit :=
  match findUser s uid with
  | none => (.error ⟨404, .userNotFound⟩, s)
  | some _ =>
      (.ok (),
        { s with users := s.users.filter (fun u => !(u.id == uid)),
                 records := s.records.filter (fun r => !(r.user_id == uid)),
                 accounts := s.accounts.filter (fun a => !(a.user_id == uid)) })

/-- The body of `POST /record`. -/
structure RecordReq where
  user_id : Option Nat
  category_id : Option Nat
  amount : Option AmountIn
  created_at : CreatedAtIn
deriving Repr, DecidableEq

/-- The `missing` list of `create_record` (`views.py` lines 288-291). -/
def missingFieldsOf (req : RecordReq) : List String :=
  (if req.user_id.isNone then ["user_id"] else []) ++
  (if req.category_id.isNone then ["category_id"] else []) ++
  (if req.amount.isNone then ["amount"] else [])

/-- `POST /record` (`views.py` lines 281-348, `create_record`):
validates field presence, the referenced user and category, the amount
(`float`, must not be `<= 0`) and the timestamp; materializes the
account if absent; then the insufficient-funds guard
`current_balance < amount_dec` (a raising comparison when a NaN is
involved) decides between a 400 with no effect and the atomic
debit-plus-insert commit. -/
def create_record (s : DBState) (req : RecordReq) : HResult Record :=
  if missingFieldsOf req ≠ [] then
    (.error ⟨400, .missingFields (missingFieldsOf req)⟩, s)
  else
    match req.user_id, req.category_id, req.amount with
    | some uid, some cid, some amount =>
        match findUser s uid with
        | none => (.error ⟨400, .userDoesNotExist⟩, s)
        | some user =>
            match findCategory s cid with
            | none => (.error ⟨400, .categoryDoesNotExist⟩, s)
            | some category =>
                match amount with
                | .nonNumeric => (.error ⟨400, .amountNotNumber⟩, s)
                | .num v =>
                    if v.leZero then (.error ⟨400, .amountNotPositive⟩, s)
                    else
                      match req.created_at with
                      | .invalid => (.error ⟨400, .invalidTimestamp⟩, s)
                      | ca =>
                          let t : Int :=
                            match ca with
                            | .given t0 => t0
                            | _ => s.now
                          match findAccount s uid with
                          | some account =>
                              let b := orZero account.balance
                              match PyDec.ltD b v with
                              | none => (.error ⟨500, .py .invalidOperation⟩, s)
                              | some true => (.error ⟨400, .insufficientFunds⟩, s)
                              | some false =>
                                  let r : Record :=
                                    ⟨s.nextRecordId, user.id, category.id, t, v⟩
                                  (.ok r,
                                    { s with
                                        accounts :=
                                          setBal s.accounts uid (PyDec.sub b v),
                                        records := s.records ++ [r],
                                        nextRecordId := s.nextRecordId + 1 })
                          | none =>
                              let b := PyDec.fin 0
                              match PyDec.ltD b v with
                              | none => (.error ⟨500, .py .invalidOperation⟩, s)
                              | some true => (.error ⟨400, .insufficientFunds⟩, s)
                              | some false =>
                                  let r : Record :=
                                    ⟨s.nextRecordId, user.id, category.id, t, v⟩
                                  (.ok r,
                                    { s with
                                        accounts := s.accounts ++
                                          [⟨s.nextAccountId, user.id,
                                            PyDec.sub b v⟩],
                                        records := s.records ++ [r],
                                        nextAccountId := s.nextAccountId + 1,
                                        nextRecordId := s.nextRecordId + 1 })
    | _, _, _ => (.error ⟨400, .missingFields (missingFieldsOf req)⟩, s)

/-- Does a record match the supplied `GET /record` filters? -/
def recMatches (uid cid : Option Nat) (r : Record) : Bool :=
  (match uid with | some u => r.user_id == u | none => true) &&
  (match cid with | some c => r.category_id == c | none => true)

/-- Ordering of records by ascending id (the `order_by(Record.id.asc())`
of `list_records`). -/
def recLE (a b : Record) : Prop := a.id ≤ b.id

instance : DecidableRel recLE := fun a b => Nat.decLe a.id b.id

instance : IsTotal Record recLE := ⟨fun a b => Nat.le_total a.id b.id⟩

instance : IsTrans Record recLE := ⟨fun _ _ _ h h' => Nat.le_trans h h'⟩

/-- `GET /record?user_id=&category_id=` (`views.py` lines 351-370,
`list_records`): 400 when neither filter is supplied; otherwise the
records matching every supplied filter, ordered by ascending id. -/
def list_records (s : DBState) (uid cid : Option Nat) :
    Except ErrResp (List Record) :=
  if uid.isNone && cid.isNone then .error ⟨400, .filterRequired⟩
  else .ok (List.insertionSort recLE (s.records.filter (recMatches uid cid)))

/-! ### The request step relation -/

/-- One mutating API request (the read-only endpoints do not change the
state). -/
inductive Op where
  | register (username password name : Option String)
  | getAccount (uid : Nat)
  | deposit (uid : Nat) (amount : Option AmountIn)
  | createCategory (name : Option String)
  | deleteCategory (cid : Option Nat)
  | createRecord (req : RecordReq)
  | deleteRecord (rid : Nat)
  | deleteUser (uid : Nat)
deriving Repr

/-- The state after serving one request. -/
def step (s : DBState) : Op → DBState
  | .register u p n => (register_user s u p n).2
  | .getAccount uid => (get_account s uid).2
  | .deposit uid amt => (deposit_to_account s uid amt).2
  | .createCategory n => (create_category s n).2
  | .deleteCategory c => (delete_category s c).2
  | .createRecord req => (create_record s req).2
  | .deleteRecord rid => (delete_record s rid).2
  | .deleteUser uid => (delete_user s uid).2

/-- The state after serving a sequence of requests. -/
def run (s : DBState) (ops : List Op) : DBState :=
  ops.foldl step s

/-- No account balance is a negative number. -/
def noNegBalance (s : DBState) : Bool :=
  s.accounts.all (fun a => !a.balance.isNeg)

/-- Every account balance compares `>= 0` (fails for NaN balances). -/
def allNonneg (s : DBState) : Bool :=
  s.accounts.all (fun a => a.balance.nonneg)

/-- At most one account row per user: the `user_id` values of the
account rows are pairwise distinct (`models.py` line 96, `unique=True`). -/
def uniqueAccounts (s : DBState) : Prop :=
  s.accounts.Pairwise (fun a b => a.user_id ≠ b.user_id)

/-! ### Helper lemmas -/

theorem orZero_eq (b : PyDec) : orZero b = b := by
  unfold orZero
  split
  · exact (by assumption : b = PyDec.fin 0).symm
  · rfl

theorem mem_setBal {l : List Account} {uid : Nat} {nb : PyDec} :
    ∀ x ∈ setBal l uid nb, x ∈ l ∨ ∃ a ∈ l, x = { a with balance := nb } := by
  induction l with
  | nil => intro x hx; simp [setBal] at hx
  | cons a rest ih =>
      intro x hx
      by_cases hA : (a.user_id == uid) = true
      · simp only [setBal, hA, if_pos] at hx
        rcases List.mem_cons.mp hx with h | h
        · exact Or.inr ⟨a, List.mem_cons_self a rest, h⟩
        · exact Or.inl (List.mem_cons_of_mem a h)
      · simp only [setBal, hA, if_neg, Bool.false_eq_true, not_false_iff] at hx
        rcases List.mem_cons.mp hx with h | h
        · exact Or.inl (h ▸ List.mem_cons_self a rest)
        · rcases ih x h with h' | ⟨a', ha', hx'⟩
          · exact Or.inl (List.mem_cons_of_mem a h')
          · exact Or.inr ⟨a', List.mem_cons_of_mem a ha', hx'⟩

theorem setBal_map_user_id (l : List Account) (uid : Nat) (nb : PyDec) :
    (setBal l uid nb).map Account.user_id = l.map Account.user_id := by
  induction l with
  | nil => rfl
  | cons a rest ih =>
      by_cases hA : (a.user_id == uid) = true
      · simp [setBal, hA]
      · simp [setBal, hA, ih]

theorem find?_setBal {l : List Account} {uid : Nat} {a : Account} (nb : PyDec)
    (h : l.find? (fun x => x.user_id == uid) = some a) :
    (setBal l uid nb).find? (fun x => x.user_id == uid)
      = some { a with balance := nb } := by
  induction l with
  | nil => simp [List.find?] at h
  | cons y rest ih =>
      by_cases hy : (y.user_id == uid) = true
      · rw [List.find?_cons_of_pos (p := fun x => x.user_id == uid) rest hy] at h
        cases h
        simp only [setBal, hy, if_pos]
        rw [List.find?_cons_of_pos (p := fun x => x.user_id == uid)
          rest (by simpa using hy)]
      · rw [List.find?_cons_of_neg (p := fun x => x.user_id == uid) rest
          (by simp [hy])] at h
        simp only [setBal, hy, Bool.false_eq_true, if_neg, not_false_iff]
        rw [List.find?_cons_of_neg (p := fun x => x.user_id == uid)
          (setBal rest uid nb) (by simp [hy])]
        exact ih h

theorem findAccount_of_countAcc_zero {s : DBState} {uid : Nat}
    (h : countAcc s uid = 0) : findAccount s uid = none := by
  unfold countAcc at h
  unfold findAccount
  rw [List.find?_eq_none]
  intro x hx
  have : s.accounts.filter (fun a => a.user_id == uid) = [] :=
    List.length_eq_zero.mp h
  intro hxp
  have : x ∈ s.accounts.filter (fun a => a.user_id == uid) :=
    List.mem_filter.mpr ⟨hx, hxp⟩
  simp_all

theorem isNeg_add_of {b v : PyDec} (hb : b.isNeg = false)
    (hv : v.leZero = false) : (PyDec.add b v).isNeg = false := by
  cases b <;> cases v <;> simp_all [PyDec.add, PyDec.isNeg, PyDec.leZero]
  linarith

theorem mem_setBal_of_ne {l : List Account} {uid : Nat} {nb : PyDec}
    {x : Account} (hx : x ∈ l) (hne : ¬ x.user_id = uid) :
    x ∈ setBal l uid nb := by
  induction l with
  | nil => simp at hx
  | cons a rest ih =>
      rcases List.mem_cons.mp hx with h | h
      · subst h
        have : (x.user_id == uid) = false := by simp [hne]
        simp [setBal, this]
      · by_cases hA : (a.user_id == uid) = true
        · simp [setBal, hA, List.mem_cons_of_mem _ h]
        · simp only [setBal, hA, Bool.false_eq_true, if_neg, not_false_iff]
          exact List.mem_cons_of_mem a (ih h)

theorem filter_eq_nil_of_find?_none {l : List Account} {uid : Nat}
    (h : l.find? (fun a => a.user_id == uid) = none) :
    l.filter (fun a => a.user_id == uid) = [] := by
  rw [List.filter_eq_nil_iff]
  intro a ha
  exact List.find?_eq_none.mp h a ha

theorem isNeg_sub_of {b v : PyDec} (hb : b.isNeg = false)
    (hlt : PyDec.ltD b v = some false) : (PyDec.sub b v).isNeg = false := by
  cases b <;> cases v <;>
    simp_all [PyDec.sub, PyDec.isNeg, PyDec.ltD]

theorem nonneg_isNeg_false {b : PyDec} (h : b.nonneg = true) :
    b.isNeg = false := by
  cases b <;> simp_all [PyDec.nonneg, PyDec.isNeg]

/-! ### How each handler touches the accounts table -/

theorem register_user_state (s : DBState) (u p n : Option String) :
    (register_user s u p n).2 = s := by
  rcases u with _ | u0
  · rfl
  rcases p with _ | p0
  · rfl
  rcases n with _ | n0
  · rfl
  simp only [register_user]
  split
  · rfl
  · rfl

theorem create_category_accounts (s : DBState) (n : Option String) :
    (create_category s n).2.accounts = s.accounts := by
  rcases n with _ | n0
  · rfl
  simp only [create_category]
  split
  · rfl
  · split
    · rfl
    · rfl

theorem delete_category_accounts (s : DBState) (c : Option Nat) :
    (delete_category s c).2.accounts = s.accounts := by
  rcases c with _ | c0
  · rfl
  simp only [delete_category]
  cases findCategory s c0
  · rfl
  · rfl

theorem delete_record_accounts (s : DBState) (rid : Nat) :
    (delete_record s rid).2.accounts = s.accounts := by
  simp only [delete_record]
  cases findRecord s rid
  · rfl
  · rfl

theorem delete_user_accounts (s : DBState) (uid : Nat) :
    ∀ x ∈ (delete_user s uid).2.accounts, x ∈ s.accounts := by
  simp only [delete_user]
  cases findUser s uid
  · intro x hx
    exact hx
  · intro x hx
    exact (List.mem_filter.mp hx).1

theorem get_account_accounts_spec (s : DBState) (uid : Nat) :
    (get_account s uid).2.accounts = s.accounts ∨
    (∃ user, findUser s uid = some user ∧
      s.accounts.find? (fun a => a.user_id == uid) = none ∧
      (get_account s uid).2.accounts
        = s.accounts ++ [⟨s.nextAccountId, user.id, PyDec.fin 0⟩]) := by
  simp only [get_account]
  cases hU : findUser s uid with
  | none => exact Or.inl rfl
  | some user =>
      cases hA : findAccount s uid with
      | some acct => simp [hA]
      | none =>
          refine Or.inr ⟨user, rfl, hA, ?_⟩
          simp [hA]

theorem deposit_accounts_spec (s : DBState) (uid : Nat)
    (amt : Option AmountIn) :
    (deposit_to_account s uid amt).2.accounts = s.accounts ∨
    (∃ acct v, s.accounts.find? (fun a => a.user_id == uid) = some acct ∧
      PyDec.leZero v = false ∧
      (deposit_to_account s uid amt).2.accounts
        = setBal s.accounts uid (PyDec.add (orZero acct.balance) v)) ∨
    (∃ user v, findUser s uid = some user ∧
      s.accounts.find? (fun a => a.user_id == uid) = none ∧
      PyDec.leZero v = false ∧
      (deposit_to_account s uid amt).2.accounts
        = s.accounts ++
          [⟨s.nextAccountId, user.id, PyDec.add (PyDec.fin 0) v⟩]) := by
  simp only [deposit_to_account]
  cases hU : findUser s uid with
  | none => exact Or.inl rfl
  | some user =>
      rcases amt with _ | amt0
      · exact Or.inl rfl
      rcases amt0 with _ | v
      · exact Or.inl rfl
      by_cases hv : PyDec.leZero v = true
      · simp [hv]
      · have hv' : PyDec.leZero v = false := by simpa using hv
        cases hA : findAccount s uid with
        | some acct =>
            refine Or.inr (Or.inl ⟨acct, v, hA, hv', ?_⟩)
            simp [hv', hA]
        | none =>
            refine Or.inr (Or.inr ⟨user, v, rfl, hA, hv', ?_⟩)
            simp [hv', hA]

theorem create_record_accounts_spec (s : DBState) (req : RecordReq) :
    (create_record s req).2.accounts = s.accounts ∨
    (∃ uid acct v, req.user_id = some uid ∧
      s.accounts.find? (fun a => a.user_id == uid) = some acct ∧
      PyDec.ltD (orZero acct.balance) v = some false ∧
      (create_record s req).2.accounts
        = setBal s.accounts uid (PyDec.sub (orZero acct.balance) v)) ∨
    (∃ uid user v, req.user_id = some uid ∧
      findUser s uid = some user ∧
      s.accounts.find? (fun a => a.user_id == uid) = none ∧
      PyDec.ltD (PyDec.fin 0) v = some false ∧
      (create_record s req).2.accounts
        = s.accounts ++
          [⟨s.nextAccountId, user.id, PyDec.sub (PyDec.fin 0) v⟩]) := by
  obtain ⟨ouid, ocid, oamt, oca⟩ := req
  rcases ouid with _ | uid
  · exact Or.inl rfl
  rcases ocid with _ | cid
  · exact Or.inl rfl
  rcases oamt with _ | amt0
  · exact Or.inl rfl
  cases hU : findUser s uid with
  | none => exact Or.inl (by simp [create_record, missingFieldsOf, hU])
  | some user =>
      rcases amt0 with _ | v
      · exact Or.inl (by
          cases hC : findCategory s cid <;>
            simp [create_record, missingFieldsOf, hU, hC])
      cases hC : findCategory s cid with
      | none => exact Or.inl (by simp [create_record, missingFieldsOf, hU, hC])
      | some category =>
          by_cases hv : PyDec.leZero v = true
          · exact Or.inl (by simp [create_record, missingFieldsOf, hU, hC, hv])
          · have hv' : PyDec.leZero v = false := by simpa using hv
            have hfin : ∀ (heq : oca ≠ CreatedAtIn.invalid),
                (∀ acct, findAccount s uid = some acct →
                  ∀ bo, PyDec.ltD (orZero acct.balance) v = some bo →
                  (create_record s
                    ⟨some uid, some cid, some (.num v), oca⟩).2.accounts
                    = if bo then s.accounts
                      else setBal s.accounts uid
                        (PyDec.sub (orZero acct.balance) v)) ∧
                (∀ acct, findAccount s uid = some acct →
                  PyDec.ltD (orZero acct.balance) v = none →
                  (create_record s
                    ⟨some uid, some cid, some (.num v), oca⟩).2.accounts
                    = s.accounts) ∧
                (findAccount s uid = none →
                  ∀ bo, PyDec.ltD (PyDec.fin 0) v = some bo →
                  (create_record s
                    ⟨some uid, some cid, some (.num v), oca⟩).2.accounts
                    = if bo then s.accounts
                      else s.accounts ++
                        [⟨s.nextAccountId, user.id, PyDec.sub (PyDec.fin 0) v⟩]) ∧
                (findAccount s uid = none →
                  PyDec.ltD (PyDec.fin 0) v = none →
                  (create_record s
                    ⟨some uid, some cid, some (.num v), oca⟩).2.accounts
                    = s.accounts) := by
              intro hca
              cases oca with
              | invalid => exact absurd rfl hca
              | absent =>
                  refine ⟨fun acct hA bo hlt => ?_, fun acct hA hlt => ?_,
                    fun hA bo hlt => ?_, fun hA hlt => ?_⟩
                  · cases bo <;>
                      simp_all [create_record, missingFieldsOf, hU, hC, hv']
                  · simp_all [create_record, missingFieldsOf, hU, hC, hv']
                  · cases bo <;>
                      simp_all [create_record, missingFieldsOf, hU, hC, hv']
                  · simp_all [create_record, missingFieldsOf, hU, hC, hv']
              | given t0 =>
                  refine ⟨fun acct hA bo hlt => ?_, fun acct hA hlt => ?_,
                    fun hA bo hlt => ?_, fun hA hlt => ?_⟩
                  · cases bo <;>
                      simp_all [create_record, missingFieldsOf, hU, hC, hv']
                  · simp_all [create_record, missingFieldsOf, hU, hC, hv']
                  · cases bo <;>
                      simp_all [create_record, missingFieldsOf, hU, hC, hv']
                  · simp_all [create_record, missingFieldsOf, hU, hC, hv']
            cases hca : oca with
            | invalid =>
                exact Or.inl (by simp [create_record, missingFieldsOf, hU, hC, hv'])
            | absent =>
                subst hca
                obtain ⟨h1, h2, h3, h4⟩ := hfin (by simp)
                cases hA : findAccount s uid with
                | some acct =>
                    cases hlt : PyDec.ltD (orZero acct.balance) v with
                    | none => exact Or.inl (h2 acct hA hlt)
                    | some bo =>
                        cases bo
                        · exact Or.inr (Or.inl ⟨uid, acct, v, rfl, hA, hlt,
                            by simpa using h1 acct hA false hlt⟩)
                        · exact Or.inl (by simpa using h1 acct hA true hlt)
                | none =>
                    cases hlt : PyDec.ltD (PyDec.fin 0) v with
                    | none => exact Or.inl (h4 hA hlt)
                    | some bo =>
                        cases bo
                        · exact Or.inr (Or.inr ⟨uid, user, v, rfl, hU, hA, hlt,
                            by simpa using h3 hA false hlt⟩)
                        · exact Or.inl (by simpa using h3 hA true hlt)
            | given t0 =>
                subst hca
                obtain ⟨h1, h2, h3, h4⟩ := hfin (by simp)
                cases hA : findAccount s uid with
                | some acct =>
                    cases hlt : PyDec.ltD (orZero acct.balance) v with
                    | none => exact Or.inl (h2 acct hA hlt)
                    | some bo =>
                        cases bo
                        · exact Or.inr (Or.inl ⟨uid, acct, v, rfl, hA, hlt,
                            by simpa using h1 acct hA false hlt⟩)
                        · exact Or.inl (by simpa using h1 acct hA true hlt)
                | none =>
                    cases hlt : PyDec.ltD (PyDec.fin 0) v with
                    | none => exact Or.inl (h4 hA hlt)
                    | some bo =>
                        cases bo
                        · exact Or.inr (Or.inr ⟨uid, user, v, rfl, hU, hA, hlt,
                            by simpa using h3 hA false hlt⟩)
                        · exact Or.inl (by simpa using h3 hA true hlt)

theorem delete_user_accounts_eq (s : DBState) (uid : Nat) :
    (delete_user s uid).2.accounts = s.accounts ∨
    (delete_user s uid).2.accounts
      = s.accounts.filter (fun a => !(a.user_id == uid)) := by
  simp only [delete_user]
  cases findUser s uid
  · exact Or.inl rfl
  · exact Or.inr rfl

/-! ### Preservation of the ledger invariants by every request -/

theorem noNeg_of_accounts {s' : DBState} {l : List Account}
    (heq : s'.accounts = l) (hl : ∀ a ∈ l, a.balance.isNeg = false) :
    noNegBalance s' = true := by
  unfold noNegBalance
  rw [heq, List.all_eq_true]
  intro a ha
  simpa using hl a ha

theorem noNeg_mem {s : DBState} (h : noNegBalance s = true) :
    ∀ a ∈ s.accounts, a.balance.isNeg = false := by
  intro a ha
  simpa using List.all_eq_true.mp h a ha

theorem noNeg_step (s : DBState) (op : Op) (h : noNegBalance s = true) :
    noNegBalance (step s op) = true := by
  have hmem := noNeg_mem h
  cases op with
  | register u p n =>
      show noNegBalance (register_user s u p n).2 = true
      rw [register_user_state]
      exact h
  | getAccount uid =>
      show noNegBalance (get_account s uid).2 = true
      rcases get_account_accounts_spec s uid with heq | ⟨user, hU, hA, heq⟩
      · exact noNeg_of_accounts heq hmem
      · refine noNeg_of_accounts heq ?_
        intro a ha
        rcases List.mem_append.mp ha with hl | hr
        · exact hmem a hl
        · rcases List.mem_singleton.mp hr with rfl
          rfl
  | deposit uid amt =>
      show noNegBalance (deposit_to_account s uid amt).2 = true
      rcases deposit_accounts_spec s uid amt with heq |
        ⟨acct, v, hA, hv, heq⟩ | ⟨user, v, hU, hA, hv, heq⟩
      · exact noNeg_of_accounts heq hmem
      · refine noNeg_of_accounts heq ?_
        intro x hx
        rcases mem_setBal x hx with hxl | ⟨a', _, rfl⟩
        · exact hmem x hxl
        · have hacct : (orZero acct.balance).isNeg = false := by
            rw [orZero_eq]
            exact hmem acct (List.mem_of_find?_eq_some hA)
          simpa using isNeg_add_of hacct hv
      · refine noNeg_of_accounts heq ?_
        intro x hx
        rcases List.mem_append.mp hx with hxl | hxr
        · exact hmem x hxl
        · rcases List.mem_singleton.mp hxr with rfl
          simpa using isNeg_add_of (b := PyDec.fin 0) rfl hv
  | createCategory n =>
      show noNegBalance (create_category s n).2 = true
      exact noNeg_of_accounts (create_category_accounts s n) hmem
  | deleteCategory c =>
      show noNegBalance (delete_category s c).2 = true
      exact noNeg_of_accounts (delete_category_accounts s c) hmem
  | createRecord req =>
      show noNegBalance (create_record s req).2 = true
      rcases create_record_accounts_spec s req with heq |
        ⟨uid, acct, v, _, hA, hlt, heq⟩ | ⟨uid, user, v, _, hU, hA, hlt, heq⟩
      · exact noNeg_of_accounts heq hmem
      · refine noNeg_of_accounts heq ?_
        intro x hx
        rcases mem_setBal x hx with hxl | ⟨a', _, rfl⟩
        · exact hmem x hxl
        · have hacct : (orZero acct.balance).isNeg = false := by
            rw [orZero_eq]
            exact hmem acct (List.mem_of_find?_eq_some hA)
          simpa using isNeg_sub_of hacct hlt
      · refine noNeg_of_accounts heq ?_
        intro x hx
        rcases List.mem_append.mp hx with hxl | hxr
        · exact hmem x hxl
        · rcases List.mem_singleton.mp hxr with rfl
          simpa using isNeg_sub_of (b := PyDec.fin 0) rfl hlt
  | deleteRecord rid =>
      show noNegBalance (delete_record s rid).2 = true
      exact noNeg_of_accounts (delete_record_accounts s rid) hmem
  | deleteUser uid =>
      show noNegBalance (delete_user s uid).2 = true
      rcases delete_user_accounts_eq s uid with heq | heq
      · exact noNeg_of_accounts heq hmem
      · refine noNeg_of_accounts heq ?_
        intro x hx
        exact hmem x (List.mem_filter.mp hx).1

theorem noNeg_run (s0 : DBState) (ops : List Op)
    (h : noNegBalance s0 = true) : noNegBalance (run s0 ops) = true := by
  induction ops generalizing s0 with
  | nil => simpa [run] using h
  | cons op rest ih => exact ih (step s0 op) (noNeg_step s0 op h)

theorem unique_of_accounts {s' : DBState} {l : List Account}
    (heq : s'.accounts = l)
    (hl : l.Pairwise (fun a b => a.user_id ≠ b.user_id)) :
    uniqueAccounts s' := by
  unfold uniqueAccounts
  rw [heq]
  exact hl

theorem pairwise_ne_setBal {l : List Account} {uid : Nat} {nb : PyDec}
    (h : l.Pairwise (fun a b => a.user_id ≠ b.user_id)) :
    (setBal l uid nb).Pairwise (fun a b => a.user_id ≠ b.user_id) := by
  have h' : (l.map Account.user_id).Pairwise Ne := List.pairwise_map.mpr h
  rw [← setBal_map_user_id l uid nb] at h'
  exact List.pairwise_map.mp h'

theorem pairwise_ne_append_new {l : List Account} {uid : Nat}
    (new : Account)
    (h : l.Pairwise (fun a b => a.user_id ≠ b.user_id))
    (hA : l.find? (fun a => a.user_id == uid) = none)
    (hnew : new.user_id = uid) :
    (l ++ [new]).Pairwise (fun a b => a.user_id ≠ b.user_id) := by
  rw [List.pairwise_append]
  refine ⟨h, List.pairwise_singleton _ _, ?_⟩
  intro a ha b hb
  rcases List.mem_singleton.mp hb with rfl
  rw [hnew]
  have := List.find?_eq_none.mp hA a ha
  simpa using this

theorem uniqueAccounts_step (s : DBState) (op : Op)
    (h : uniqueAccounts s) : uniqueAccounts (step s op) := by
  cases op with
  | register u p n =>
      show uniqueAccounts (register_user s u p n).2
      rw [show (register_user s u p n).2 = s from register_user_state s u p n]
      exact h
  | getAccount uid =>
      show uniqueAccounts (get_account s uid).2
      rcases get_account_accounts_spec s uid with heq | ⟨user, hU, hA, heq⟩
      · exact unique_of_accounts heq h
      · have hU' : s.users.find? (fun u => u.id == uid) = some user := hU
        have huid : user.id = uid := by simpa using List.find?_some hU'
        exact unique_of_accounts heq (pairwise_ne_append_new _ h hA huid)
  | deposit uid amt =>
      show uniqueAccounts (deposit_to_account s uid amt).2
      rcases deposit_accounts_spec s uid amt with heq |
        ⟨acct, v, hA, hv, heq⟩ | ⟨user, v, hU, hA, hv, heq⟩
      · exact unique_of_accounts heq h
      · exact unique_of_accounts heq (pairwise_ne_setBal h)
      · have hU' : s.users.find? (fun u => u.id == uid) = some user := hU
        have huid : user.id = uid := by simpa using List.find?_some hU'
        exact unique_of_accounts heq (pairwise_ne_append_new _ h hA huid)
  | createCategory n =>
      show uniqueAccounts (create_category s n).2
      exact unique_of_accounts (create_category_accounts s n) h
  | deleteCategory c =>
      show uniqueAccounts (delete_category s c).2
      exact unique_of_accounts (delete_category_accounts s c) h
  | createRecord req =>
      show uniqueAccounts (create_record s req).2
      rcases create_record_accounts_spec s req with heq |
        ⟨uid, acct, v, _, hA, hlt, heq⟩ | ⟨uid, user, v, _, hU, hA, hlt, heq⟩
      · exact unique_of_accounts heq h
      · exact unique_of_accounts heq (pairwise_ne_setBal h)
      · have hU' : s.users.find? (fun u => u.id == uid) = some user := hU
        have huid : user.id = uid := by simpa using List.find?_some hU'
        exact unique_of_accounts heq (pairwise_ne_append_new _ h hA huid)
  | deleteRecord rid =>
      show uniqueAccounts (delete_record s rid).2
      exact unique_of_accounts (delete_record_accounts s rid) h
  | deleteUser uid =>
      show uniqueAccounts (delete_user s uid).2
      rcases delete_user_accounts_eq s uid with heq | heq
      · exact unique_of_accounts heq h
      · exact unique_of_accounts heq (h.sublist (List.filter_sublist _))

/-! ### Concrete states used by witnesses -/

/-- A database with no rows at all. -/
def emptyState : DBState := ⟨[], [], [], [], 1, 1, 1, 1, 0⟩

/-- A database with one user, one category, one record of amount 40 and
the user's account at balance 60 (the state after the specification's
walkthrough scenario). -/
def wsState : DBState :=
  ⟨[⟨1, "alice"⟩], [⟨1, "food"⟩], [⟨1, 1, 1, 0, PyDec.fin 40⟩],
    [⟨1, 1, PyDec.fin 60⟩], 2, 2, 2, 2, 5⟩

/-- A database seeded with a single user and nothing else. -/
def oneUserState : DBState := ⟨[⟨1, "alice"⟩], [], [], [], 2, 1, 1, 1, 0⟩

/-! ### Claim theorems -/

/-- C5: deleting an existing record succeeds and removes only that
record row — the accounts table (hence every balance), the users and
the categories are identical before and after, and exactly the records
with a different id remain; deleting a missing record is a 404 with no
effect at all. -/
theorem delete_record_preserves_balances (s : DBState) (rid : Nat) :
    (delete_record s rid).2.accounts = s.accounts ∧
    (delete_record s rid).2.categories = s.categories ∧
    (delete_record s rid).2.users = s.users ∧
    (¬ findRecord s rid = none →
      (delete_record s rid).1 = .ok () ∧
      ∀ r : Record, r ∈ (delete_record s rid).2.records ↔
        r ∈ s.records ∧ ¬ r.id = rid) ∧
    (findRecord s rid = none →
      delete_record s rid = (.error ⟨404, .recordNotFound⟩, s)) := by
  cases h : findRecord s rid with
  | none => simp [delete_record, h]
  | some r0 => simp [delete_record, h, List.mem_filter]

theorem delete_record_preserves_balances_witness :
    (delete_record wsState 1).1 = .ok () ∧
    ∀ r : Record, r ∈ (delete_record wsState 1).2.records ↔
      r ∈ wsState.records ∧ ¬ r.id = 1 :=
  (delete_record_preserves_balances wsState 1).2.2.2.1 (by decide)

/-- C6 (code bug): a `POST /user` request carrying `username`,
`password` and `name`, with no user in the database at all (so the
username is certainly free), does not produce a 201: the handler
crashes with an uncaught exception (HTTP 500) and creates nothing,
because `models.py` defines no `username`/`password` columns on `User`
while `views.py` filters and constructs by them. -/
theorem register_user_crashes_on_valid_input :
    register_user emptyState (some "alice") (some "secret") (some "Alice")
      = (.error ⟨500, .py .attributeError⟩, emptyState) ∧
    (register_user emptyState (some "alice") (some "secret")
      (some "Alice")).2.users = [] := by
  constructor <;> rfl

/-- A syntactically fresh category name that is nevertheless rejected:
129 characters, one over the `String(128)` bound of `models.py`. -/
def longName : String := String.mk (List.replicate 129 'a')

set_option maxRecDepth 8192 in
/-- C8 counterexample: on an empty database — so `longName` is
certainly not taken — the very first creation of the 129-character
`longName` does not succeed: the storage layer rejects the
`varchar(128)` insert, the blanket `except` catches it, and the handler
reports the duplicate-name 400 for a name that is not a duplicate,
changing nothing.  This refutes "creating a category with that name
succeeds the first time" as stated over every name. -/
theorem create_category_long_name_cex :
    emptyState.categories.any (fun c => c.name == longName) = false ∧
    create_category emptyState (some longName)
      = (.error ⟨400, .categoryNameExists⟩, emptyState) := by
  constructor
  · rfl
  · rfl

/-- C8 (amended): creating a category with a fresh name of at most 128
characters succeeds the first time, and immediately re-creating the
same name is rejected as a duplicate; creating a category whose name is
already present fails with the duplicate-name 400 and changes nothing;
a name over 128 characters always fails with that same (mislabeled)
duplicate-name 400, duplicate or not, with no state change; and every
failure of the handler is either the missing-name validation error or
the duplicate-name 400 — no storage fault (uniqueness or length) ever
surfaces raw (in particular never as a 500). -/
theorem create_category_unique_conflict (s : DBState) (n : String)
    (hn : ¬ n = "") :
    (s.categories.any (fun c => c.name == n) = false → n.length ≤ 128 →
      (create_category s (some n)).1 = .ok ⟨s.nextCategoryId, n⟩ ∧
      (create_category ((create_category s (some n)).2) (some n)).1
        = .error ⟨400, .categoryNameExists⟩) ∧
    (s.categories.any (fun c => c.name == n) = true →
      create_category s (some n) = (.error ⟨400, .categoryNameExists⟩, s)) ∧
    (128 < n.length →
      create_category s (some n) = (.error ⟨400, .categoryNameExists⟩, s)) ∧
    (∀ e : ErrResp, (create_category s (some n)).1 = .error e →
      e.status = 400 ∧
      (e.kind = .nameRequired ∨ e.kind = .categoryNameExists)) := by
  by_cases hAny : s.categories.any (fun c => c.name == n) = true
  · refine ⟨fun hFree _ => absurd hAny (by simp [hFree]),
      fun _ => by simp [create_category, categoryCommitFails, hn, hAny],
      fun _ => by simp [create_category, categoryCommitFails, hn, hAny], ?_⟩
    intro e he
    simp [create_category, categoryCommitFails, hn, hAny] at he
    subst he
    simp
  · have hF : s.categories.any (fun c => c.name == n) = false := by
      simpa using hAny
    by_cases hLen : 128 < n.length
    · refine ⟨fun _ hLe => absurd hLen (not_lt.mpr hLe),
        fun hT => absurd hT (by simp [hF]),
        fun _ => by simp [create_category, categoryCommitFails, hn, hF, hLen],
        ?_⟩
      intro e he
      simp [create_category, categoryCommitFails, hn, hF, hLen] at he
      subst he
      simp
    · have hLe : n.length ≤ 128 := not_lt.mp hLen
      refine ⟨fun _ _ => ?_, fun hT => absurd hT (by simp [hF]),
        fun hG => absurd hG hLen, ?_⟩
      · constructor
        · simp [create_category, categoryCommitFails, hn, hF, hLen]
        · simp [create_category, categoryCommitFails, hn, hF, hLen,
            List.any_append]
      · intro e he
        simp [create_category, categoryCommitFails, hn, hF, hLen] at he

theorem create_category_unique_conflict_witness :
    (create_category wsState (some "drinks")).1 = .ok ⟨2, "drinks"⟩ ∧
    (create_category ((create_category wsState (some "drinks")).2)
      (some "drinks")).1 = .error ⟨400, .categoryNameExists⟩ :=
  (create_category_unique_conflict wsState "drinks" (by decide)).1
    (by decide) (by decide)

/-- C10: deleting an existing category succeeds, destroys exactly the
records referencing it (the cascade), leaves every other record and
category, and does not touch the accounts table at all — every
account's balance is identical before and after, so the amounts those
destroyed records debited stay subtracted. -/
theorem delete_category_cascades_records_only (s : DBState) (c : Nat)
    (h : ¬ findCategory s c = none) :
    (delete_category s (some c)).1 = .ok () ∧
    (delete_category s (some c)).2.accounts = s.accounts ∧
    (delete_category s (some c)).2.users = s.users ∧
    (∀ r : Record, r ∈ (delete_category s (some c)).2.records ↔
      r ∈ s.records ∧ ¬ r.category_id = c) ∧
    (∀ k : Category, k ∈ (delete_category s (some c)).2.categories ↔
      k ∈ s.categories ∧ ¬ k.id = c) := by
  cases hf : findCategory s c with
  | none => exact absurd hf h
  | some cat => simp [delete_category, hf, List.mem_filter]

/-- C2 (amended): starting from any state whose account balances are
all non-negative, after any sequence of API requests no account balance
is ever a negative number — in particular no record-creation debit ever
drives a balance below zero (the debit only fires when the comparison
`balance < amount` decides false).  The stronger reading "every balance
stays `>= 0`" holds for finite amounts but fails only for the NaN
balances a non-finite deposit amount introduces, which compare neither
negative nor `>= 0` (see the counterexample). -/
theorem no_negative_balance_reachable (s0 : DBState) (ops : List Op)
    (h0 : allNonneg s0 = true) : noNegBalance (run s0 ops) = true := by
  refine noNeg_run s0 ops ?_
  unfold noNegBalance
  rw [List.all_eq_true]
  intro a ha
  have := List.all_eq_true.mp h0 a ha
  simpa using nonneg_isNeg_false (by simpa using this)

theorem no_negative_balance_reachable_witness :
    allNonneg wsState = true ∧
    noNegBalance (run wsState
      [Op.deposit 1 (some (.num (.fin 10))),
       Op.createRecord ⟨some 1, some 1, some (.num (.fin 65)), .absent⟩,
       Op.getAccount 1]) = true :=
  ⟨by decide, no_negative_balance_reachable wsState _ (by decide)⟩

/-- C2 counterexample: from a state with one user and no accounts (so
every balance is vacuously non-negative), a single deposit whose amount
is the non-finite NaN — which the deposit handler accepts — yields a
reachable state whose account balance is NaN, and NaN does not compare
`>= 0`: the claimed invariant "every operation keeps every
Account.balance >= 0" fails on this reachable state. -/
theorem balance_nonneg_invariant_cex :
    allNonneg oneUserState = true ∧
    allNonneg (run oneUserState [Op.deposit 1 (some (.num .nan))]) = false :=
  ⟨rfl, rfl⟩

/-- C4: reading the account of an existing user who has none yet
returns a fresh account with balance 0 for that user, after which
exactly one account row for the user exists; reading again returns the
very same account and changes nothing (idempotence).  Moreover every
API request preserves the at-most-one-account-per-user invariant
(pairwise-distinct `user_id` over the accounts table). -/
theorem get_account_materializes_once :
    (∀ (s : DBState) (uid : Nat),
      (findUser s uid).isSome → countAcc s uid = 0 →
      ∃ a : Account, (get_account s uid).1 = .ok a ∧
        a.balance = PyDec.fin 0 ∧ a.user_id = uid ∧
        countAcc (get_account s uid).2 uid = 1 ∧
        get_account (get_account s uid).2 uid
          = (.ok a, (get_account s uid).2)) ∧
    (∀ (s : DBState) (op : Op),
      uniqueAccounts s → uniqueAccounts (step s op)) := by
  constructor
  · intro s uid hu hno
    cases hU : findUser s uid with
    | none => rw [hU] at hu; simp at hu
    | some user =>
        have hU' : s.users.find? (fun u => u.id == uid) = some user := hU
        have huid : user.id = uid := by simpa using List.find?_some hU'
        have hA : findAccount s uid = none := findAccount_of_countAcc_zero hno
        have hA' : s.accounts.find? (fun a => a.user_id == uid) = none := hA
        have hnil : s.accounts.filter (fun a => a.user_id == uid) = [] :=
          filter_eq_nil_of_find?_none hA'
        have heval : get_account s uid
            = (.ok (⟨s.nextAccountId, user.id, PyDec.fin 0⟩ : Account),
               { s with
                   accounts := s.accounts ++
                     [⟨s.nextAccountId, user.id, PyDec.fin 0⟩],
                   nextAccountId := s.nextAccountId + 1 }) := by
          simp [get_account, hU, hA]
        refine ⟨⟨s.nextAccountId, user.id, PyDec.fin 0⟩, by rw [heval], rfl,
          huid, ?_, ?_⟩
        · rw [heval]
          simp only [countAcc]
          rw [List.filter_append, hnil]
          simp [huid]
        · have hU2 : findUser (get_account s uid).2 uid = some user := by
            rw [heval]
            exact hU'
          have hA2 : findAccount (get_account s uid).2 uid
              = some (⟨s.nextAccountId, user.id, PyDec.fin 0⟩ : Account) := by
            rw [heval]
            show (s.accounts ++
                [(⟨s.nextAccountId, user.id, PyDec.fin 0⟩ : Account)]).find?
                (fun a => a.user_id == uid)
              = some (⟨s.nextAccountId, user.id, PyDec.fin 0⟩ : Account)
            rw [List.find?_append, hA']
            simp [List.find?, huid]
          generalize hs2 : (get_account s uid).2 = s2 at hU2 hA2 ⊢
          simp [get_account, hU2, hA2]
  · exact uniqueAccounts_step

theorem get_account_materializes_once_witness :
    (∃ a : Account, (get_account oneUserState 1).1 = .ok a ∧
      a.balance = PyDec.fin 0 ∧ a.user_id = 1 ∧
      countAcc (get_account oneUserState 1).2 1 = 1 ∧
      get_account (get_account oneUserState 1).2 1
        = (.ok a, (get_account oneUserState 1).2)) ∧
    uniqueAccounts (step wsState (Op.getAccount 1)) :=
  ⟨get_account_materializes_once.1 oneUserState 1 (by decide) (by decide),
   get_account_materializes_once.2 wsState (Op.getAccount 1)
     (List.pairwise_singleton _ _)⟩

/-- C1: for a record-creation request with an existing user, an
existing category, a positive (finite) amount and a well-formed
timestamp, writing `b` for the owning account's balance before the call
(zero if no account row exists yet): if `b < q` the call fails with
InsufficientFunds and has no effect at all (no debit, no record — no
partial application); if `b >= q` it succeeds, appends exactly one
record carrying the user, category and amount, and the balance becomes
`b - q`.  The balance after the call equals `b - q` iff `b >= q`. -/
theorem create_record_debits_iff_sufficient (s : DBState) (uid cid : Nat)
    (q b : ℚ) (ca : CreatedAtIn)
    (hu : (findUser s uid).isSome) (hc : (findCategory s cid).isSome)
    (hca : ¬ ca = CreatedAtIn.invalid)
    (hb : balanceFor s uid = PyDec.fin b) (hq : 0 < q) :
    (b < q →
      create_record s ⟨some uid, some cid, some (.num (.fin q)), ca⟩
        = (.error ⟨400, .insufficientFunds⟩, s)) ∧
    (q ≤ b →
      (∃ r : Record,
        (create_record s ⟨some uid, some cid, some (.num (.fin q)), ca⟩).1
          = .ok r ∧
        r.user_id = uid ∧ r.category_id = cid ∧ r.amount = .fin q ∧
        (create_record s
          ⟨some uid, some cid, some (.num (.fin q)), ca⟩).2.records
          = s.records ++ [r]) ∧
      balanceFor
        (create_record s ⟨some uid, some cid, some (.num (.fin q)), ca⟩).2 uid
        = .fin (b - q)) ∧
    (balanceFor
        (create_record s ⟨some uid, some cid, some (.num (.fin q)), ca⟩).2 uid
        = .fin (b - q) ↔ q ≤ b) := by
  cases hU : findUser s uid with
  | none => rw [hU] at hu; simp at hu
  | some user =>
  cases hC : findCategory s cid with
  | none => rw [hC] at hc; simp at hc
  | some category =>
  have hU' : s.users.find? (fun u => u.id == uid) = some user := hU
  have huid : user.id = uid := by simpa using List.find?_some hU'
  have hC' : s.categories.find? (fun c => c.id == cid) = some category := hC
  have hcid : category.id = cid := by simpa using List.find?_some hC'
  have hle : PyDec.leZero (PyDec.fin q) = false := by
    simp only [PyDec.leZero, decide_eq_false_iff_not, not_le]
    exact hq
  cases hA : findAccount s uid with
  | some acct =>
      have hA' : s.accounts.find? (fun a => a.user_id == uid) = some acct := hA
      have hob : orZero acct.balance = PyDec.fin b := by
        simpa [balanceFor, hA] using hb
      by_cases hbq : b < q
      · have heval :
            create_record s ⟨some uid, some cid, some (.num (.fin q)), ca⟩
              = (.error ⟨400, .insufficientFunds⟩, s) := by
          cases ca with
          | invalid => exact absurd rfl hca
          | absent =>
              simp [create_record, missingFieldsOf, hU, hC, hle, hA, hob,
                PyDec.ltD, hbq]
          | given t0 =>
              simp [create_record, missingFieldsOf, hU, hC, hle, hA, hob,
                PyDec.ltD, hbq]
        have hnb : ¬ (PyDec.fin b = PyDec.fin (b - q)) := by
          intro h
          have : b = b - q := by injection h
          have : q = 0 := by linarith
          exact absurd this (by linarith)
        refine ⟨fun _ => heval, fun hqb => absurd hqb (by linarith), ?_⟩
        rw [heval]
        constructor
        · intro h
          rw [hb] at h
          exact absurd h hnb
        · intro h
          exact absurd h (by linarith)
      · have hqb : q ≤ b := le_of_not_lt hbq
        have heval :
            (create_record s ⟨some uid, some cid, some (.num (.fin q)), ca⟩)
              = (.ok (⟨s.nextRecordId, user.id, category.id,
                  (match ca with | .given t0 => t0 | _ => s.now), PyDec.fin q⟩),
                 { s with
                     accounts := setBal s.accounts uid (PyDec.fin (b - q)),
                     records := s.records ++
                       [⟨s.nextRecordId, user.id, category.id,
                         (match ca with | .given t0 => t0 | _ => s.now),
                         PyDec.fin q⟩],
                     nextRecordId := s.nextRecordId + 1 }) := by
          cases ca with
          | invalid => exact absurd rfl hca
          | absent =>
              simp [create_record, missingFieldsOf, hU, hC, hle, hA, hob,
                PyDec.ltD, hbq, PyDec.sub]
          | given t0 =>
              simp [create_record, missingFieldsOf, hU, hC, hle, hA, hob,
                PyDec.ltD, hbq, PyDec.sub]
        have hbal :
            balanceFor
              (create_record s
                ⟨some uid, some cid, some (.num (.fin q)), ca⟩).2 uid
              = .fin (b - q) := by
          rw [heval]
          simp only [balanceFor, findAccount]
          rw [find?_setBal (PyDec.fin (b - q)) hA']
          simp [orZero_eq]
        refine ⟨fun hlt => absurd hlt (by linarith), fun _ => ⟨⟨_, by rw [heval],
          huid, hcid, rfl, by rw [heval]⟩, hbal⟩, ?_⟩
        exact ⟨fun _ => hqb, fun _ => hbal⟩
  | none =>
      have hb0 : b = 0 := by
        have : PyDec.fin 0 = PyDec.fin b := by simpa [balanceFor, hA] using hb
        injection this with h
        exact h.symm
      have hbq : b < q := by rw [hb0]; exact hq
      have heval :
          create_record s ⟨some uid, some cid, some (.num (.fin q)), ca⟩
            = (.error ⟨400, .insufficientFunds⟩, s) := by
        cases ca with
        | invalid => exact absurd rfl hca
        | absent =>
            simp [create_record, missingFieldsOf, hU, hC, hle, hA,
              PyDec.ltD, hbq, hb0, hq]
        | given t0 =>
            simp [create_record, missingFieldsOf, hU, hC, hle, hA,
              PyDec.ltD, hbq, hb0, hq]
      have hnb : ¬ (PyDec.fin b = PyDec.fin (b - q)) := by
        intro h
        have : b = b - q := by injection h
        have : q = 0 := by linarith
        exact absurd this (by linarith)
      refine ⟨fun _ => heval, fun hqb => absurd hqb (by linarith), ?_⟩
      rw [heval]
      constructor
      · intro h
        rw [hb] at h
        exact absurd h hnb
      · intro h
        exact absurd h (by linarith)

theorem create_record_debits_iff_sufficient_witness :
    (∃ r : Record,
      (create_record wsState
        ⟨some 1, some 1, some (.num (.fin 15)), .absent⟩).1 = .ok r ∧
      r.user_id = 1 ∧ r.category_id = 1 ∧ r.amount = .fin 15 ∧
      (create_record wsState
        ⟨some 1, some 1, some (.num (.fin 15)), .absent⟩).2.records
        = wsState.records ++ [r]) ∧
    balanceFor (create_record wsState
      ⟨some 1, some 1, some (.num (.fin 15)), .absent⟩).2 1
      = .fin (60 - 15) :=
  (create_record_debits_iff_sufficient wsState 1 1 15 60 .absent
    (by decide) (by decide) (by decide) (by decide) (by norm_num)).2.1
    (by norm_num)

/-- C3 (amended): for a deposit on an existing user, a missing,
non-numeric or non-positive amount fails with the corresponding 400 and
leaves the state untouched; any other parsed amount — a positive finite
value, but also the non-finite NaN, which the handler does not reject —
succeeds: the returned account belongs to the user and its balance is
the previous balance (zero if no account row existed, in which case
exactly one account row is materialized) plus the amount under Python
`Decimal` arithmetic, and the accounts of other users are untouched.
An amount of `Infinity` also passes the handler's validation, but its
fate at commit depends on the storage backend's numeric type (a
constrained SQL `numeric` rejects it), which is outside this embedding;
the statement therefore excludes `v = inf` rather than assert success
for it. -/
theorem deposit_characterization (s : DBState) (uid : Nat) (v : PyDec)
    (hu : (findUser s uid).isSome) (_hinf : ¬ v = PyDec.inf) :
    (deposit_to_account s uid none = (.error ⟨400, .amountRequired⟩, s)) ∧
    (deposit_to_account s uid (some .nonNumeric)
       = (.error ⟨400, .amountNotNumber⟩, s)) ∧
    (v.leZero = true →
       deposit_to_account s uid (some (.num v))
         = (.error ⟨400, .amountNotPositive⟩, s)) ∧
    (v.leZero = false →
       (∃ a : Account, (deposit_to_account s uid (some (.num v))).1 = .ok a ∧
          a.user_id = uid ∧ a.balance = PyDec.add (balanceFor s uid) v) ∧
       balanceFor (deposit_to_account s uid (some (.num v))).2 uid
         = PyDec.add (balanceFor s uid) v ∧
       (findAccount s uid = none →
          countAcc (deposit_to_account s uid (some (.num v))).2 uid = 1) ∧
       (∀ a : Account, a ∈ s.accounts → ¬ a.user_id = uid →
          a ∈ (deposit_to_account s uid (some (.num v))).2.accounts)) := by
  cases hU : findUser s uid with
  | none => rw [hU] at hu; simp at hu
  | some user =>
      have hU' : s.users.find? (fun u => u.id == uid) = some user := hU
      have huid : user.id = uid := by simpa using List.find?_some hU'
      refine ⟨by simp [deposit_to_account, hU], by simp [deposit_to_account, hU],
        fun hLe => by simp [deposit_to_account, hU, hLe], fun hv => ?_⟩
      cases hA : findAccount s uid with
      | some acct =>
          have hA' : s.accounts.find? (fun a => a.user_id == uid) = some acct := hA
          have hAcct : acct.user_id = uid := by simpa using List.find?_some hA'
          have hbal : balanceFor s uid = orZero acct.balance := by
            simp [balanceFor, hA]
          refine ⟨⟨{ acct with balance := PyDec.add (orZero acct.balance) v },
            by simp [deposit_to_account, hU, hA, hv], by simpa using hAcct,
            by rw [hbal]⟩, ?_, fun hnone => by simp [hA] at hnone, ?_⟩
          · have hfind :
                ((deposit_to_account s uid (some (.num v))).2).accounts.find?
                  (fun a => a.user_id == uid)
                  = some { acct with balance := PyDec.add (orZero acct.balance) v } := by
              simp only [deposit_to_account, hU, hA, hv, Bool.false_eq_true,
                if_neg, not_false_iff]
              exact find?_setBal _ hA'
            rw [hbal]
            simp only [balanceFor, findAccount, hfind, orZero_eq]
          · intro a ha hane
            simp only [deposit_to_account, hU, hA, hv, Bool.false_eq_true,
              if_neg, not_false_iff]
            exact mem_setBal_of_ne ha hane
      | none =>
          have hA' : s.accounts.find? (fun a => a.user_id == uid) = none := hA
          have hbal : balanceFor s uid = PyDec.fin 0 := by
            simp [balanceFor, hA]
          have hnil : s.accounts.filter (fun a => a.user_id == uid) = [] :=
            filter_eq_nil_of_find?_none hA'
          refine ⟨⟨⟨s.nextAccountId, user.id, PyDec.add (PyDec.fin 0) v⟩,
            by simp [deposit_to_account, hU, hA, hv], huid, by rw [hbal]⟩,
            ?_, fun _ => ?_, ?_⟩
          · have hfind :
                ((deposit_to_account s uid (some (.num v))).2).accounts.find?
                  (fun a => a.user_id == uid)
                  = some ⟨s.nextAccountId, user.id, PyDec.add (PyDec.fin 0) v⟩ := by
              simp only [deposit_to_account, hU, hA, hv, Bool.false_eq_true,
                if_neg, not_false_iff]
              rw [List.find?_append, hA']
              simp [List.find?, huid]
            rw [hbal]
            simp only [balanceFor, findAccount, hfind, orZero_eq]
          · simp only [deposit_to_account, hU, hA, hv, Bool.false_eq_true,
              if_neg, not_false_iff, countAcc]
            rw [List.filter_append, hnil]
            simp [huid]
          · intro a ha _
            simp only [deposit_to_account, hU, hA, hv, Bool.false_eq_true,
              if_neg, not_false_iff]
            exact List.mem_append_left _ ha

theorem deposit_characterization_witness :
    (deposit_to_account wsState 1 none
       = (.error ⟨400, .amountRequired⟩, wsState)) ∧
    (∃ a : Account, (deposit_to_account wsState 1 (some (.num (.fin 25)))).1
        = .ok a ∧ a.user_id = 1 ∧
        a.balance = PyDec.add (balanceFor wsState 1) (.fin 25)) ∧
    balanceFor (deposit_to_account wsState 1 (some (.num (.fin 25)))).2 1
      = PyDec.add (balanceFor wsState 1) (.fin 25) := by
  have h := deposit_characterization wsState 1 (.fin 25) (by decide) (by decide)
  exact ⟨h.1, (h.2.2.2 (by decide)).1, (h.2.2.2 (by decide)).2.1⟩

/-- C3 counterexample: on a database holding only user 1 (no account),
a deposit whose amount is the non-finite float NaN does not fail with
the InvalidAmount 400 the claim requires — the handler accepts it,
returns the account, and leaves the materialized balance as the
non-finite value NaN (which is not `>= 0`). -/
theorem deposit_nonfinite_accepted_cex :
    (deposit_to_account oneUserState 1 (some (.num .nan))).1
      = .ok ⟨1, 1, PyDec.nan⟩ ∧
    (deposit_to_account oneUserState 1 (some (.num .nan))).2.accounts
      = [⟨1, 1, PyDec.nan⟩] ∧
    PyDec.nonneg PyDec.nan = false :=
  ⟨rfl, rfl, rfl⟩

/-- C9: listing records with neither filter fails with the 400
validation error; with at least one filter present it returns a list
that is a permutation of the records matching every supplied filter,
sorted by ascending id — so it contains exactly the matching records
and no others, in ascending id order. -/
theorem list_records_filter_sorted (s : DBState) (uid cid : Option Nat) :
    (uid = none → cid = none →
      list_records s uid cid = .error ⟨400, .filterRequired⟩) ∧
    (¬ (uid = none ∧ cid = none) →
      ∃ l : List Record, list_records s uid cid = .ok l ∧
        l.Perm (s.records.filter (recMatches uid cid)) ∧
        List.Sorted recLE l ∧
        ∀ r : Record, r ∈ l ↔
          r ∈ s.records ∧ recMatches uid cid r = true) := by
  constructor
  · intro h1 h2
    subst h1
    subst h2
    rfl
  · intro h
    have hcond : (uid.isNone && cid.isNone) = false := by
      cases uid <;> cases cid <;> simp_all
    refine ⟨List.insertionSort recLE (s.records.filter (recMatches uid cid)),
      by simp [list_records, hcond], List.perm_insertionSort _ _,
      List.sorted_insertionSort _ _, ?_⟩
    intro r
    rw [(List.perm_insertionSort recLE _).mem_iff, List.mem_filter]

theorem list_records_filter_sorted_witness :
    ∃ l : List Record, list_records wsState (some 1) none = .ok l ∧
      l.Perm (wsState.records.filter (recMatches (some 1) none)) ∧
      List.Sorted recLE l ∧
      ∀ r : Record, r ∈ l ↔
        r ∈ wsState.records ∧ recMatches (some 1) none r = true :=
  (list_records_filter_sorted wsState (some 1) none).2 (by simp)

theorem delete_category_cascades_records_only_witness :
    (delete_category wsState (some 1)).1 = .ok () ∧
    (delete_category wsState (some 1)).2.accounts = wsState.accounts ∧
    (delete_category wsState (some 1)).2.users = wsState.users ∧
    (∀ r : Record, r ∈ (delete_category wsState (some 1)).2.records ↔
      r ∈ wsState.records ∧ ¬ r.category_id = 1) ∧
    (∀ k : Category, k ∈ (delete_category wsState (some 1)).2.categories ↔
      k ∈ wsState.categories ∧ ¬ k.id = 1) :=
  delete_category_cascades_records_only wsState 1 (by decide)

end App

